import Mathlib

set_option autoImplicit false

/-!
Shallow embedding of the TODO backend (src/backend/app): the pydantic data
model (models.py), the in-memory storage layer (storage.py), the service
layer (services.py) and the FastAPI route dispatch (routes.py).

Datetimes are modelled as natural-number timestamps; the current time is
passed explicitly to the operations that read the clock.  Python dicts are
modelled as association lists in insertion order (Python dicts preserve
insertion order; assignment to an existing key replaces in place).
Fallible Python code (pydantic validation errors) is modelled with `Except`.
-/

abbrev Timestamp := Nat

/-- Python `str.strip()`: removes leading and trailing whitespace. -/
def pyStrip (s : String) : String :=
  ⟨((s.data.dropWhile Char.isWhitespace).reverse.dropWhile
      Char.isWhitespace).reverse⟩

/-- Digits of a decimal numeral to its value (`none` on a non-numeral). -/
def parseDigits (ds : List Char) : Option Nat :=
  match ds with
  | [] => none
  | _ =>
      if ds.all Char.isDigit then
        some (ds.foldl (fun n c => 10 * n + (c.toNat - '0'.toNat)) 0)
      else none

/-- Conversion of a decimal path-parameter string to an integer, modelling
the int parsing FastAPI applies to the `{todo_id}` path parameter:
an optional minus sign followed by at least one digit. -/
def parseDecInt (s : String) : Option Int :=
  match s.data with
  | '-' :: ds => (parseDigits ds).map (fun n => -(n : Int))
  | ds => (parseDigits ds).map (fun n => (n : Int))

/-- models.py `Todo` (inherits `title` from `TodoBase`). -/
structure Todo where
  id : Int
  title : String
  completed : Bool
  created_at : Timestamp
deriving Repr, DecidableEq

/-- models.py `TodoCreate` (inherits `title` from `TodoBase`). -/
structure TodoCreate where
  title : String
deriving Repr, DecidableEq

/-- pydantic validity of a `TodoCreate` value: `title` has between 1 and 500
characters (`Field(..., min_length=1, max_length=500)`). -/
def TodoCreate.pydanticValid (d : TodoCreate) : Prop :=
  1 ≤ d.title.length ∧ d.title.length ≤ 500

/-- models.py `TodoUpdate`.  Each pydantic optional field is
`Option (Option _)`: `none` means the field was not set at all,
`some none` means it was explicitly set to `null`, and `some (some v)`
means it was set to the value `v`.  (`model_dump(exclude_unset := true)`
keeps the `some none` case.) -/
structure TodoUpdate where
  completed : Option (Option Bool)
  title : Option (Option String)
deriving Repr, DecidableEq

/-- pydantic validity of a `TodoUpdate` value: a title that is set to an
actual string has between 1 and 500 characters. -/
def TodoUpdate.pydanticValid (u : TodoUpdate) : Prop :=
  ∀ s, u.title = some (some s) → 1 ≤ s.length ∧ s.length ≤ 500

/-- Construction of a `Todo`, including pydantic field validation:
`title` must be an actual string of 1..500 characters (not `null`), and
`completed` must be an actual boolean (not `null`); otherwise pydantic
raises a validation error, modelled as `Except.error`. -/
def mkTodo (id : Int) (title : Option String) (completed : Option Bool)
    (created_at : Timestamp) : Except Unit Todo :=
  match title, completed with
  | some s, some c =>
      if 1 ≤ s.length ∧ s.length ≤ 500 then
        .ok { id := id, title := s, completed := c, created_at := created_at }
      else
        .error ()
  | _, _ => .error ()

/-- models.py `TodoStats`. -/
structure TodoStats where
  total : Nat
  completed : Nat
  pending : Nat
deriving Repr, DecidableEq

/-- storage.py `InMemoryTodoStorage` state: `_todos : Dict[int, Todo]`
(insertion-ordered association list) and `_next_id`. -/
structure InMemoryTodoStorage where
  todos : List (Int × Todo)
  next_id : Int
deriving Repr, DecidableEq

namespace InMemoryTodoStorage

/-- `__init__`: empty dict, `_next_id = 1`. -/
def init : InMemoryTodoStorage := { todos := [], next_id := 1 }

/-- Python dict assignment `d[k] = v`: replaces in place if the key exists,
otherwise appends at the end (insertion order). -/
def dictSet (k : Int) (v : Todo) : List (Int × Todo) → List (Int × Todo)
  | [] => [(k, v)]
  | p :: rest => if p.1 = k then (k, v) :: rest else p :: dictSet k v rest

/-- Python dict lookup `d.get(k)`. -/
def dictGet (k : Int) (l : List (Int × Todo)) : Option Todo :=
  (l.find? (fun p => p.1 == k)).map Prod.snd

/-- Stable insertion (into a list already sorted descending by `created_at`)
placing `x` before the first element whose timestamp is `≤ x`'s. -/
def insertByCreatedAtDesc (x : Todo) : List Todo → List Todo
  | [] => [x]
  | y :: ys =>
      if y.created_at ≤ x.created_at then x :: y :: ys
      else y :: insertByCreatedAtDesc x ys

/-- Python `sorted(todos, key = created_at, reverse = True)`: a stable sort,
descending by `created_at`; elements with equal keys keep their original
relative order. -/
def sortByCreatedAtDesc : List Todo → List Todo
  | [] => []
  | x :: xs => insertByCreatedAtDesc x (sortByCreatedAtDesc xs)

/-- `get_all_todos`: all todos sorted by creation date, newest first. -/
def get_all_todos (s : InMemoryTodoStorage) : List Todo :=
  sortByCreatedAtDesc (s.todos.map Prod.snd)

/-- `get_todo_by_id`. -/
def get_todo_by_id (s : InMemoryTodoStorage) (todo_id : Int) : Option Todo :=
  dictGet todo_id s.todos

/-- `create_todo`: takes `_next_id` as the new id, increments the counter,
then builds and stores the `Todo` (stamping `created_at` with the current
time `now`).  Note the counter is incremented before the `Todo` is
validated, so it is bumped even if construction fails. -/
def create_todo (s : InMemoryTodoStorage) (todo_data : TodoCreate)
    (now : Timestamp) : Except Unit Todo × InMemoryTodoStorage :=
  let todo_id := s.next_id
  let s1 : InMemoryTodoStorage := { s with next_id := s.next_id + 1 }
  match mkTodo todo_id (some todo_data.title) (some false) now with
  | .error e => (.error e, s1)
  | .ok todo => (.ok todo, { s1 with todos := dictSet todo_id todo s1.todos })

/-- `update_todo`: absent id gives `ok none`; otherwise rebuilds the todo,
taking each field from the patch when the field was set
(`model_dump(exclude_unset=True)` keeps fields explicitly set to `null`)
and from the current todo otherwise; `id` and `created_at` are always
taken from the current todo.  Rebuilding revalidates the fields, so a
field explicitly set to `null` makes the construction fail. -/
def update_todo (s : InMemoryTodoStorage) (todo_id : Int)
    (update_data : TodoUpdate) :
    Except Unit (Option Todo) × InMemoryTodoStorage :=
  match dictGet todo_id s.todos with
  | none => (.ok none, s)
  | some current_todo =>
      let newTitle : Option String :=
        update_data.title.getD (some current_todo.title)
      let newCompleted : Option Bool :=
        update_data.completed.getD (some current_todo.completed)
      match mkTodo current_todo.id newTitle newCompleted
          current_todo.created_at with
      | .error e => (.error e, s)
      | .ok updated_todo =>
          (.ok (some updated_todo),
           { s with todos := dictSet todo_id updated_todo s.todos })

/-- `delete_todo`: removes the entry and reports whether one was removed. -/
def delete_todo (s : InMemoryTodoStorage) (todo_id : Int) :
    Bool × InMemoryTodoStorage :=
  if (s.todos.find? (fun p => p.1 == todo_id)).isSome then
    (true, { s with todos := s.todos.filter (fun p => p.1 != todo_id) })
  else
    (false, s)

/-- `mark_all_complete`: replaces every incomplete todo with a copy whose
`completed` is true (other fields copied unchanged), counting the todos
actually changed. -/
def mark_all_complete (s : InMemoryTodoStorage) :
    Nat × InMemoryTodoStorage :=
  (s.todos.countP (fun p => !p.2.completed),
   { s with
       todos := s.todos.map (fun p =>
         if p.2.completed then p else (p.1, { p.2 with completed := true })) })

/-- `delete_completed_todos`. -/
def delete_completed_todos (s : InMemoryTodoStorage) :
    Nat × InMemoryTodoStorage :=
  (s.todos.countP (fun p => p.2.completed),
   { s with todos := s.todos.filter (fun p => !p.2.completed) })

/-- `delete_all_todos`. -/
def delete_all_todos (s : InMemoryTodoStorage) :
    Nat × InMemoryTodoStorage :=
  (s.todos.length, { s with todos := [] })

end InMemoryTodoStorage

/-- The typed failures raised by the service layer (exceptions.py), plus
`pydanticError` for an uncategorized pydantic validation error escaping
from model construction (not one of the app's typed failures). -/
inductive ServiceError where
  | validationFailure
  | notFoundFailure
  | pydanticError
deriving Repr, DecidableEq

namespace TodoService

/-- services.py `get_all_todos`: pass-through. -/
def get_all_todos (s : InMemoryTodoStorage) : List Todo :=
  InMemoryTodoStorage.get_all_todos s

/-- services.py `get_todo_by_id`: rejects non-positive ids, turns a missing
id into `TodoNotFoundError`. -/
def get_todo_by_id (s : InMemoryTodoStorage) (todo_id : Int) :
    Except ServiceError Todo :=
  if todo_id ≤ 0 then .error .validationFailure
  else
    match InMemoryTodoStorage.get_todo_by_id s todo_id with
    | none => .error .notFoundFailure
    | some todo => .ok todo

/-- services.py `create_todo`: rejects a title that is empty after
stripping, then builds the sanitized `TodoCreate` (whose construction
revalidates the 1..500 length bounds) and stores it. -/
def create_todo (s : InMemoryTodoStorage) (todo_data : TodoCreate)
    (now : Timestamp) : Except ServiceError Todo × InMemoryTodoStorage :=
  if pyStrip todo_data.title = "" then (.error .validationFailure, s)
  else if ¬ (1 ≤ (pyStrip todo_data.title).length ∧
             (pyStrip todo_data.title).length ≤ 500) then
    (.error .pydanticError, s)
  else
    match InMemoryTodoStorage.create_todo s { title := pyStrip todo_data.title }
        now with
    | (.ok todo, s1) => (.ok todo, s1)
    | (.error _, s1) => (.error .pydanticError, s1)

/-- Shared tail of services.py `update_todo`: the storage call and the
translation of its outcome. -/
def runStorageUpdate (s : InMemoryTodoStorage) (todo_id : Int)
    (u : TodoUpdate) : Except ServiceError Todo × InMemoryTodoStorage :=
  match InMemoryTodoStorage.update_todo s todo_id u with
  | (.ok none, s1) => (.error .notFoundFailure, s1)
  | (.ok (some todo), s1) => (.ok todo, s1)
  | (.error _, s1) => (.error .pydanticError, s1)

/-- services.py `update_todo`: rejects non-positive ids; rejects a patch
whose `title` and `completed` attribute values are both `None` (an
explicitly-null field reads as `None`, just like an unset one); strips a
title that is set to an actual string, rejecting it if the stripped form
is empty; then delegates to storage. -/
def update_todo (s : InMemoryTodoStorage) (todo_id : Int)
    (update_data : TodoUpdate) :
    Except ServiceError Todo × InMemoryTodoStorage :=
  if todo_id ≤ 0 then (.error .validationFailure, s)
  else if update_data.title.join = none ∧ update_data.completed.join = none
  then (.error .validationFailure, s)
  else
    match update_data.title.join with
    | some t =>
        if pyStrip t = "" then (.error .validationFailure, s)
        else
          runStorageUpdate s todo_id
            { update_data with title := some (some (pyStrip t)) }
    | none => runStorageUpdate s todo_id update_data

/-- services.py `delete_todo`. -/
def delete_todo (s : InMemoryTodoStorage) (todo_id : Int) :
    Except ServiceError Unit × InMemoryTodoStorage :=
  if todo_id ≤ 0 then (.error .validationFailure, s)
  else
    match InMemoryTodoStorage.delete_todo s todo_id with
    | (true, s1) => (.ok (), s1)
    | (false, s1) => (.error .notFoundFailure, s1)

/-- services.py `get_todo_stats`: `total` is the length of the full
listing, `completed` counts the completed todos, `pending = total -
completed`. -/
def get_todo_stats (s : InMemoryTodoStorage) : TodoStats :=
  let todos := InMemoryTodoStorage.get_all_todos s
  let total := todos.length
  let completed := todos.countP (fun t => t.completed)
  { total := total, completed := completed, pending := total - completed }

end TodoService

/-! Route dispatch (routes.py).  FastAPI/Starlette tries the registered
routes in registration order and dispatches to the first one whose method
and path pattern match; a `{todo_id}` segment matches any single path
segment, and the conversion of the captured text to `int` happens only
inside the matched endpoint's parameter validation (a failed conversion
yields a 422 response from that endpoint, it does not fall through to
later routes). -/

/-- A segment of a route pattern: a literal, or a one-segment capture. -/
inductive Seg where
  | lit (s : String)
  | capture
deriving Repr, DecidableEq

/-- The endpoints of routes.py. -/
inductive HandlerId where
  | getTodos
  | getTodo
  | createTodo
  | updateTodo
  | deleteTodo
  | getTodoStats
  | markAllComplete
  | deleteCompletedTodos
  | deleteAllTodos
deriving Repr, DecidableEq

/-- The routes of routes.py in registration order (top to bottom of the
file), with the router's "/api" path prefix. -/
def apiRoutes : List (String × List Seg × HandlerId) :=
  [("GET", [.lit "api", .lit "todos"], .getTodos),
   ("GET", [.lit "api", .lit "todos", .capture], .getTodo),
   ("POST", [.lit "api", .lit "todos"], .createTodo),
   ("PUT", [.lit "api", .lit "todos", .capture], .updateTodo),
   ("DELETE", [.lit "api", .lit "todos", .capture], .deleteTodo),
   ("GET", [.lit "api", .lit "todos", .lit "stats"], .getTodoStats),
   ("POST", [.lit "api", .lit "todos", .lit "bulk", .lit "mark-complete"],
    .markAllComplete),
   ("DELETE", [.lit "api", .lit "todos", .lit "bulk", .lit "completed"],
    .deleteCompletedTodos),
   ("DELETE", [.lit "api", .lit "todos", .lit "bulk", .lit "all"],
    .deleteAllTodos)]

/-- Match a route pattern against a path, returning the captured segments. -/
def matchSegs : List Seg → List String → Option (List String)
  | [], [] => some []
  | .lit s :: ps, x :: xs => if x = s then matchSegs ps xs else none
  | .capture :: ps, x :: xs => (matchSegs ps xs).map (x :: ·)
  | _, _ => none

/-- First registered route matching the method and path. -/
def findRoute (method : String) (path : List String) :
    Option (HandlerId × List String) :=
  apiRoutes.findSome? (fun r =>
    if r.1 = method then (matchSegs r.2.1 path).map (fun args => (r.2.2, args))
    else none)

/-- The HTTP status code produced by a GET request against the given store
state: route matching, path-parameter conversion (422 on failure), the
endpoint's service call and its error mapping (routes.py's except
clauses). -/
def handleGET (s : InMemoryTodoStorage) (path : List String) : Nat :=
  match findRoute "GET" path with
  | some (.getTodos, _) => 200
  | some (.getTodo, args) =>
      match args.head? with
      | none => 422
      | some arg =>
          match parseDecInt arg with
          | none => 422
          | some todo_id =>
              match TodoService.get_todo_by_id s todo_id with
              | .ok _ => 200
              | .error .notFoundFailure => 404
              | .error .validationFailure => 400
              | .error _ => 500
  | some (.getTodoStats, _) => 200
  | some _ => 404
  | none => 404

/-! Operation traces over one storage instance, for the id-allocation
invariant. -/

/-- One mutating storage operation (the current time is an explicit
argument of `create`). -/
inductive Op where
  | create (title : String) (now : Timestamp)
  | update (todo_id : Int) (patch : TodoUpdate)
  | delete (todo_id : Int)
  | markAllComplete
  | deleteCompleted
  | deleteAll
deriving Repr

/-- The storage state after one operation. -/
def applyOp (s : InMemoryTodoStorage) : Op → InMemoryTodoStorage
  | .create t now => (InMemoryTodoStorage.create_todo s { title := t } now).2
  | .update i u => (InMemoryTodoStorage.update_todo s i u).2
  | .delete i => (InMemoryTodoStorage.delete_todo s i).2
  | .markAllComplete => (InMemoryTodoStorage.mark_all_complete s).2
  | .deleteCompleted => (InMemoryTodoStorage.delete_completed_todos s).2
  | .deleteAll => (InMemoryTodoStorage.delete_all_todos s).2

/-- The ids allocated by the `create` calls of a run, in order
(`create_todo` takes `_next_id` as the id of the call's todo). -/
def allocatedIds (s : InMemoryTodoStorage) : List Op → List Int
  | [] => []
  | .create t now :: ops =>
      s.next_id :: allocatedIds (applyOp s (.create t now)) ops
  | op :: ops => allocatedIds (applyOp s op) ops

/-- Well-formedness of a storage state, true of every state reachable from
`init`: every entry's key is its todo's id, stored titles satisfy the
1..500 pydantic bounds, ids are at least 1, keys are strictly increasing
in insertion order, all keys are below the counter, and the counter is at
least 1. -/
def StoreWF (s : InMemoryTodoStorage) : Prop :=
  (∀ p ∈ s.todos,
     p.1 = p.2.id ∧ (1 ≤ p.2.title.length ∧ p.2.title.length ≤ 500) ∧
     1 ≤ p.1 ∧ p.1 < s.next_id) ∧
  s.todos.Pairwise (fun p q => p.1 < q.1) ∧ 1 ≤ s.next_id

instance (s : InMemoryTodoStorage) : Decidable (StoreWF s) := by
  unfold StoreWF
  infer_instance

/-! Concrete states used by witness and counterexample theorems. -/

/-- A concrete todo. -/
def todoA : Todo := { id := 1, title := "a", completed := false, created_at := 5 }

/-- A concrete todo, completed, sharing `created_at` with `todoA`. -/
def todoB : Todo := { id := 2, title := "b", completed := true, created_at := 5 }

/-- A concrete todo, newer than the other two. -/
def todoC : Todo := { id := 3, title := "c", completed := false, created_at := 9 }

/-- A concrete well-formed three-todo store. -/
def exampleStore : InMemoryTodoStorage :=
  { todos := [(1, todoA), (2, todoB), (3, todoC)], next_id := 4 }

/-! Helper lemmas about the dict model. -/

namespace InMemoryTodoStorage

theorem dictGet_nil (k' : Int) : dictGet k' [] = none := rfl

theorem dictGet_cons (k' : Int) (p : Int × Todo) (l : List (Int × Todo)) :
    dictGet k' (p :: l) = if p.1 = k' then some p.2 else dictGet k' l := by
  by_cases h : p.1 = k'
  · simp [dictGet, List.find?_cons_of_pos, h]
  · simp [dictGet, List.find?_cons_of_neg, h]

theorem dictGet_dictSet_self (k : Int) (v : Todo) (l : List (Int × Todo)) :
    dictGet k (dictSet k v l) = some v := by
  induction l with
  | nil => simp [dictSet, dictGet_cons, dictGet_nil]
  | cons p rest ih =>
      by_cases h : p.1 = k
      · simp [dictSet, h, dictGet_cons]
      · simp [dictSet, h, dictGet_cons, ih]

theorem dictGet_dictSet_ne (k k' : Int) (v : Todo) (l : List (Int × Todo))
    (h : k' ≠ k) : dictGet k' (dictSet k v l) = dictGet k' l := by
  induction l with
  | nil => simp [dictSet, dictGet_cons, dictGet_nil, Ne.symm h]
  | cons p rest ih =>
      obtain ⟨pk, pv⟩ := p
      by_cases hp : pk = k
      · subst hp
        simp [dictSet, dictGet_cons, Ne.symm h]
      · simp [dictSet, hp, dictGet_cons, ih]

end InMemoryTodoStorage

/-! Helper lemmas about the stable descending sort. -/

namespace InMemoryTodoStorage

theorem mem_insertByCreatedAtDesc {z x : Todo} {l : List Todo} :
    z ∈ insertByCreatedAtDesc x l ↔ z = x ∨ z ∈ l := by
  induction l with
  | nil => simp [insertByCreatedAtDesc]
  | cons y ys ih =>
      by_cases h : y.created_at ≤ x.created_at
      · simp [insertByCreatedAtDesc, h]
      · simp only [insertByCreatedAtDesc, if_neg h, List.mem_cons, ih]
        tauto

theorem perm_insertByCreatedAtDesc (x : Todo) (l : List Todo) :
    (insertByCreatedAtDesc x l).Perm (x :: l) := by
  induction l with
  | nil => simp [insertByCreatedAtDesc]
  | cons y ys ih =>
      by_cases h : y.created_at ≤ x.created_at
      · simp [insertByCreatedAtDesc, h]
      · simpa [insertByCreatedAtDesc, h] using
          (ih.cons y).trans (List.Perm.swap x y ys)

theorem perm_sortByCreatedAtDesc (l : List Todo) :
    (sortByCreatedAtDesc l).Perm l := by
  induction l with
  | nil => simp [sortByCreatedAtDesc]
  | cons x xs ih =>
      exact (perm_insertByCreatedAtDesc x (sortByCreatedAtDesc xs)).trans
        (ih.cons x)

theorem pairwise_insertByCreatedAtDesc {x : Todo} {l : List Todo}
    (h : l.Pairwise (fun a b => b.created_at ≤ a.created_at)) :
    (insertByCreatedAtDesc x l).Pairwise
      (fun a b => b.created_at ≤ a.created_at) := by
  induction l with
  | nil => simp [insertByCreatedAtDesc]
  | cons y ys ih =>
      rcases List.pairwise_cons.mp h with ⟨hy, hys⟩
      by_cases hc : y.created_at ≤ x.created_at
      · rw [insertByCreatedAtDesc, if_pos hc]
        refine List.pairwise_cons.mpr ⟨?_, h⟩
        intro z hz
        rcases List.mem_cons.mp hz with rfl | hz'
        · exact hc
        · exact le_trans (hy z hz') hc
      · rw [insertByCreatedAtDesc, if_neg hc]
        refine List.pairwise_cons.mpr ⟨?_, ih hys⟩
        intro z hz
        rcases mem_insertByCreatedAtDesc.mp hz with rfl | hz'
        · exact le_of_lt (lt_of_not_le hc)
        · exact hy z hz'

theorem sorted_sortByCreatedAtDesc (l : List Todo) :
    (sortByCreatedAtDesc l).Pairwise
      (fun a b => b.created_at ≤ a.created_at) := by
  induction l with
  | nil => simp [sortByCreatedAtDesc]
  | cons x xs ih => exact pairwise_insertByCreatedAtDesc ih

theorem stable_insertByCreatedAtDesc {x : Todo} {l : List Todo}
    (hl : l.Pairwise (fun a b => a.created_at = b.created_at → a.id < b.id))
    (hx : ∀ y ∈ l, x.created_at = y.created_at → x.id < y.id) :
    (insertByCreatedAtDesc x l).Pairwise
      (fun a b => a.created_at = b.created_at → a.id < b.id) := by
  induction l with
  | nil => simp [insertByCreatedAtDesc]
  | cons y ys ih =>
      rcases List.pairwise_cons.mp hl with ⟨hy, hys⟩
      by_cases hc : y.created_at ≤ x.created_at
      · rw [insertByCreatedAtDesc, if_pos hc]
        exact List.pairwise_cons.mpr ⟨hx, hl⟩
      · rw [insertByCreatedAtDesc, if_neg hc]
        refine List.pairwise_cons.mpr
          ⟨?_, ih hys (fun z hz => hx z (List.mem_cons_of_mem y hz))⟩
        intro z hz heq
        rcases mem_insertByCreatedAtDesc.mp hz with rfl | hz'
        · exact absurd (le_of_eq heq) hc
        · exact hy z hz' heq

theorem stable_sortByCreatedAtDesc {l : List Todo}
    (hl : l.Pairwise (fun a b => a.created_at = b.created_at → a.id < b.id)) :
    (sortByCreatedAtDesc l).Pairwise
      (fun a b => a.created_at = b.created_at → a.id < b.id) := by
  induction l with
  | nil => simp [sortByCreatedAtDesc]
  | cons x xs ih =>
      rcases List.pairwise_cons.mp hl with ⟨hx, hxs⟩
      refine stable_insertByCreatedAtDesc (ih hxs) ?_
      intro y hy
      exact hx y ((perm_sortByCreatedAtDesc xs).mem_iff.mp hy)

end InMemoryTodoStorage

/-- A string that is not empty has at least one character. -/
theorem length_pos_of_ne_nil {s : String} (h : s ≠ "") : 1 ≤ s.length := by
  cases s with
  | mk data =>
      cases data with
      | nil => cases h rfl
      | cons c cs => simp [String.length]

/-- Copying a todo with `completed := true` is the identity on an
already-completed todo. -/
theorem setCompleted_eq_self {t : Todo} (h : t.completed = true) :
    { t with completed := true } = t := by
  cases t
  simp_all

/-! The claims. -/

/-- C1: the spec says a GET request to /api/todos/stats answers 200 with
the stats body for every state of the store, routed to the stats handler.
In routes.py the parametric route "/todos/{todo_id}" is registered before
"/todos/stats", so the request is dispatched to the get-by-id handler,
whose int conversion of "stats" fails: the response is 422 for every store
state, and the stats handler is unreachable on this path. -/
theorem C1_stats_route_shadowed (s : InMemoryTodoStorage) :
    handleGET s ["api", "todos", "stats"] = 422 ∧
    findRoute "GET" ["api", "todos", "stats"]
      = some (HandlerId.getTodo, ["stats"]) := by
  constructor
  · rfl
  · rfl

/-- C4: Service.create with a title that is empty or whitespace-only after
trimming fails with a ValidationFailure and returns the store untouched
(in particular its size is unchanged). -/
theorem C4_create_blank_title_rejected (s : InMemoryTodoStorage)
    (d : TodoCreate) (now : Timestamp) (h : pyStrip d.title = "") :
    TodoService.create_todo s d now
      = (.error ServiceError.validationFailure, s) ∧
    ((TodoService.create_todo s d now).2).todos.length = s.todos.length := by
  have heq : TodoService.create_todo s d now
      = (.error ServiceError.validationFailure, s) := by
    simp [TodoService.create_todo, h]
  exact ⟨heq, by rw [heq]⟩

/-- Witness for C4 at a concrete whitespace-only title. -/
theorem C4_witness :
    (pyStrip " " = "") ∧
    TodoService.create_todo exampleStore { title := " " } 12
      = (.error ServiceError.validationFailure, exampleStore) :=
  ⟨by decide,
   (C4_create_blank_title_rejected exampleStore { title := " " } 12
     (by decide)).1⟩

/-- C8: for every store state, the service stats satisfy
pending + completed = total, and total is the length of the full
listing. -/
theorem C8_stats_consistent (s : InMemoryTodoStorage) :
    (TodoService.get_todo_stats s).pending
        + (TodoService.get_todo_stats s).completed
      = (TodoService.get_todo_stats s).total ∧
    (TodoService.get_todo_stats s).total
      = (TodoService.get_all_todos s).length := by
  constructor
  · exact Nat.sub_add_cancel (List.countP_le_length _)
  · rfl

/-- C2: on every well-formed store, listAll returns exactly the stored
todos (a permutation of the store's values), ordered by created_at
descending, with todos of equal created_at in insertion order (strictly
increasing id); on an empty store it returns the empty list. -/
theorem C2_list_all_ordered (s : InMemoryTodoStorage) (hwf : StoreWF s) :
    (InMemoryTodoStorage.get_all_todos s).Perm (s.todos.map Prod.snd) ∧
    (InMemoryTodoStorage.get_all_todos s).Pairwise
      (fun a b => b.created_at ≤ a.created_at) ∧
    (InMemoryTodoStorage.get_all_todos s).Pairwise
      (fun a b => a.created_at = b.created_at → a.id < b.id) ∧
    (s.todos = [] → InMemoryTodoStorage.get_all_todos s = []) := by
  obtain ⟨hfields, hkeys, -⟩ := hwf
  refine ⟨InMemoryTodoStorage.perm_sortByCreatedAtDesc _,
          InMemoryTodoStorage.sorted_sortByCreatedAtDesc _, ?_, ?_⟩
  · apply InMemoryTodoStorage.stable_sortByCreatedAtDesc
    rw [List.pairwise_map]
    refine List.Pairwise.imp_of_mem ?_ hkeys
    intro p q hp hq hlt _heq
    have h1 := (hfields p hp).1
    have h2 := (hfields q hq).1
    omega
  · intro h
    simp [InMemoryTodoStorage.get_all_todos, h,
      InMemoryTodoStorage.sortByCreatedAtDesc]

/-- Witness for C2 at a concrete three-todo store (two todos share a
created_at). -/
theorem C2_witness :
    StoreWF exampleStore ∧
    ((InMemoryTodoStorage.get_all_todos exampleStore).Perm
       (exampleStore.todos.map Prod.snd) ∧
     (InMemoryTodoStorage.get_all_todos exampleStore).Pairwise
       (fun a b => b.created_at ≤ a.created_at) ∧
     (InMemoryTodoStorage.get_all_todos exampleStore).Pairwise
       (fun a b => a.created_at = b.created_at → a.id < b.id) ∧
     (exampleStore.todos = [] →
       InMemoryTodoStorage.get_all_todos exampleStore = [])) :=
  ⟨by decide, C2_list_all_ordered exampleStore (by decide)⟩

/-- C5: Service.create on a title that is non-empty after trimming (and
within the 500-character bound of a valid TodoCreate) succeeds, returning
a Todo with completed false, the positive freshly-allocated id, the
trimmed title (the trimmed form is what is persisted) and created_at
stamped with the current time; the todo is retrievable from the new
store under its id. -/
theorem C5_create_valid_title (s : InMemoryTodoStorage) (d : TodoCreate)
    (now : Timestamp) (hwf : StoreWF s) (hne : pyStrip d.title ≠ "")
    (hlen : (pyStrip d.title).length ≤ 500) :
    ∃ t s1, TodoService.create_todo s d now = (.ok t, s1) ∧
      t.completed = false ∧ 0 < t.id ∧ t.id = s.next_id ∧
      t.title = pyStrip d.title ∧ t.created_at = now ∧
      InMemoryTodoStorage.get_todo_by_id s1 t.id = some t ∧
      s1.next_id = s.next_id + 1 := by
  have h1 : 1 ≤ (pyStrip d.title).length := length_pos_of_ne_nil hne
  have hmk : mkTodo s.next_id (some (pyStrip d.title)) (some false) now
      = .ok { id := s.next_id, title := pyStrip d.title, completed := false,
              created_at := now } := by
    simp [mkTodo, h1, hlen]
  have hstep : TodoService.create_todo s d now
      = (.ok { id := s.next_id, title := pyStrip d.title, completed := false,
               created_at := now },
         { todos := InMemoryTodoStorage.dictSet s.next_id
             { id := s.next_id, title := pyStrip d.title, completed := false,
               created_at := now } s.todos,
           next_id := s.next_id + 1 }) := by
    simp [TodoService.create_todo, InMemoryTodoStorage.create_todo, hne, h1,
      hlen, hmk]
  refine ⟨_, _, hstep, rfl, ?_, rfl, rfl, rfl, ?_, rfl⟩
  · show (0 : Int) < s.next_id
    have := hwf.2.2
    omega
  · simpa [InMemoryTodoStorage.get_todo_by_id] using
      InMemoryTodoStorage.dictGet_dictSet_self s.next_id _ s.todos

/-- Witness for C5 at a concrete padded title. -/
theorem C5_witness :
    StoreWF exampleStore ∧ pyStrip " hey " ≠ "" ∧
    (pyStrip " hey ").length ≤ 500 ∧
    (∃ t s1,
      TodoService.create_todo exampleStore { title := " hey " } 12
        = (.ok t, s1) ∧
      t.completed = false ∧ 0 < t.id ∧ t.id = exampleStore.next_id ∧
      t.title = pyStrip " hey " ∧ t.created_at = 12 ∧
      InMemoryTodoStorage.get_todo_by_id s1 t.id = some t ∧
      s1.next_id = exampleStore.next_id + 1) :=
  ⟨by decide, by decide, by decide,
   C5_create_valid_title exampleStore { title := " hey " } 12 (by decide)
     (by decide) (by decide)⟩

/-- C7: markAllComplete returns the number of previously-incomplete todos,
replaces each stored todo's completed flag with true while leaving its
key, id, title and created_at (and already-complete todos) unchanged,
and afterwards every stored todo is complete, so stats().pending = 0. -/
theorem C7_mark_all_complete (s : InMemoryTodoStorage) (_hwf : StoreWF s) :
    (InMemoryTodoStorage.mark_all_complete s).1
        = s.todos.countP (fun p => !p.2.completed) ∧
    ((InMemoryTodoStorage.mark_all_complete s).2).todos
        = s.todos.map (fun p => (p.1, { p.2 with completed := true })) ∧
    (∀ p ∈ ((InMemoryTodoStorage.mark_all_complete s).2).todos,
       p.2.completed = true) ∧
    (TodoService.get_todo_stats
        (InMemoryTodoStorage.mark_all_complete s).2).pending = 0 := by
  have hmap : ((InMemoryTodoStorage.mark_all_complete s).2).todos
      = s.todos.map (fun p => (p.1, { p.2 with completed := true })) := by
    simp only [InMemoryTodoStorage.mark_all_complete]
    refine List.map_congr_left ?_
    intro p _
    by_cases h : p.2.completed
    · simp [h, setCompleted_eq_self h]
    · simp [h]
  have hall : ∀ p ∈ ((InMemoryTodoStorage.mark_all_complete s).2).todos,
      p.2.completed = true := by
    rw [hmap]
    intro p hp
    obtain ⟨q, -, rfl⟩ := List.mem_map.mp hp
    rfl
  refine ⟨rfl, hmap, hall, ?_⟩
  have hallSorted : ∀ t ∈ InMemoryTodoStorage.get_all_todos
      (InMemoryTodoStorage.mark_all_complete s).2, t.completed = true := by
    intro t ht
    have hmem := (InMemoryTodoStorage.perm_sortByCreatedAtDesc _).mem_iff.mp ht
    obtain ⟨p, hp, rfl⟩ := List.mem_map.mp hmem
    exact hall p hp
  simp only [TodoService.get_todo_stats]
  rw [List.countP_eq_length.mpr hallSorted]
  exact Nat.sub_self _

/-- Witness for C7 at a concrete store with two incomplete todos. -/
theorem C7_witness :
    StoreWF exampleStore ∧
    ((InMemoryTodoStorage.mark_all_complete exampleStore).1
        = exampleStore.todos.countP (fun p => !p.2.completed) ∧
     ((InMemoryTodoStorage.mark_all_complete exampleStore).2).todos
        = exampleStore.todos.map
            (fun p => (p.1, { p.2 with completed := true })) ∧
     (∀ p ∈ ((InMemoryTodoStorage.mark_all_complete exampleStore).2).todos,
        p.2.completed = true) ∧
     (TodoService.get_todo_stats
         (InMemoryTodoStorage.mark_all_complete exampleStore).2).pending
       = 0) :=
  ⟨by decide, C7_mark_all_complete exampleStore (by decide)⟩

/-- After deleting a key from the dict, looking it up yields nothing. -/
theorem InMemoryTodoStorage.dictGet_filter_self (k : Int)
    (l : List (Int × Todo)) :
    InMemoryTodoStorage.dictGet k (l.filter (fun p => p.1 != k)) = none := by
  rw [InMemoryTodoStorage.dictGet, Option.map_eq_none', List.find?_eq_none]
  intro p hp
  simpa using (List.mem_filter.mp hp).2

/-- C9: for every positive id, Service.delete followed by Service.getById
yields not-found (whether or not the id was present); Service.delete of a
positive id not in the store fails with NotFoundFailure and leaves the
store unchanged; and for a non-positive id it fails with a
ValidationFailure instead, also leaving the store unchanged. -/
theorem C9_delete_semantics (s : InMemoryTodoStorage) (todo_id : Int) :
    (0 < todo_id →
      TodoService.get_todo_by_id (TodoService.delete_todo s todo_id).2 todo_id
        = .error ServiceError.notFoundFailure) ∧
    (0 < todo_id → InMemoryTodoStorage.get_todo_by_id s todo_id = none →
      TodoService.delete_todo s todo_id
        = (.error ServiceError.notFoundFailure, s)) ∧
    (todo_id ≤ 0 →
      TodoService.delete_todo s todo_id
        = (.error ServiceError.validationFailure, s)) := by
  refine ⟨?_, ?_, ?_⟩
  · intro hpos
    have hne : ¬ todo_id ≤ 0 := by omega
    by_cases h : (s.todos.find? (fun p => p.1 == todo_id)).isSome
    · simp only [TodoService.delete_todo, if_neg hne,
        InMemoryTodoStorage.delete_todo, if_pos h]
      simp only [TodoService.get_todo_by_id, if_neg hne,
        InMemoryTodoStorage.get_todo_by_id,
        InMemoryTodoStorage.dictGet_filter_self]
    · simp only [TodoService.delete_todo, if_neg hne,
        InMemoryTodoStorage.delete_todo, if_neg h]
      have hnone : InMemoryTodoStorage.dictGet todo_id s.todos = none := by
        rw [InMemoryTodoStorage.dictGet, Option.map_eq_none']
        exact Option.not_isSome_iff_eq_none.mp h
      simp only [TodoService.get_todo_by_id, if_neg hne,
        InMemoryTodoStorage.get_todo_by_id, hnone]
  · intro hpos habs
    have hne : ¬ todo_id ≤ 0 := by omega
    have hfind : (s.todos.find? (fun p => p.1 == todo_id)).isSome = false := by
      rw [InMemoryTodoStorage.get_todo_by_id, InMemoryTodoStorage.dictGet,
        Option.map_eq_none'] at habs
      simp [habs]
    simp [TodoService.delete_todo, hne, InMemoryTodoStorage.delete_todo, hfind]
  · intro hle
    simp [TodoService.delete_todo, hle]

/-- Witness for C9: a present id, an absent id and a non-positive id on a
concrete store. -/
theorem C9_witness :
    ((0 : Int) < 1 ∧
      TodoService.get_todo_by_id (TodoService.delete_todo exampleStore 1).2 1
        = .error ServiceError.notFoundFailure) ∧
    ((0 : Int) < 9 ∧
      InMemoryTodoStorage.get_todo_by_id exampleStore 9 = none ∧
      TodoService.delete_todo exampleStore 9
        = (.error ServiceError.notFoundFailure, exampleStore)) ∧
    ((0 : Int) ≤ 0 ∧
      TodoService.delete_todo exampleStore 0
        = (.error ServiceError.validationFailure, exampleStore)) :=
  ⟨⟨by decide, (C9_delete_semantics exampleStore 1).1 (by decide)⟩,
   ⟨by decide, by decide,
    (C9_delete_semantics exampleStore 9).2.1 (by decide) (by decide)⟩,
   ⟨by decide, (C9_delete_semantics exampleStore 0).2.2 (by decide)⟩⟩

/-- C10: Service.update on an existing (positive) id with a patch whose
title is explicitly set to null and whose completed is set to a boolean
does not treat the null title as absent: the patch passes the
something-to-update check (the attribute values are read, and completed
is non-null) and is handed to storage with the null kept by exclude_unset
semantics, where rebuilding the Todo with a null title fails pydantic
validation; the error surfaces as an uncategorized error, not a
ValidationFailure or NotFoundFailure, and the store is unchanged. -/
theorem C10_null_title_patch_uncategorized (s : InMemoryTodoStorage)
    (todo_id : Int) (u : TodoUpdate) (b : Bool) (cur : Todo)
    (hpos : 0 < todo_id)
    (hex : InMemoryTodoStorage.get_todo_by_id s todo_id = some cur)
    (ht : u.title = some none) (hc : u.completed = some (some b)) :
    TodoService.update_todo s todo_id u
      = (.error ServiceError.pydanticError, s) := by
  have hne : ¬ todo_id ≤ 0 := by omega
  have hg : InMemoryTodoStorage.dictGet todo_id s.todos = some cur := hex
  simp [TodoService.update_todo, hne, ht, hc, TodoService.runStorageUpdate,
    InMemoryTodoStorage.update_todo, hg, mkTodo]

/-- Witness for C10: patch `{title: null, completed: true}` on id 1 of a
concrete store. -/
theorem C10_witness :
    (0 : Int) < 1 ∧
    InMemoryTodoStorage.get_todo_by_id exampleStore 1 = some todoA ∧
    TodoService.update_todo exampleStore 1
        { completed := some (some true), title := some none }
      = (.error ServiceError.pydanticError, exampleStore) :=
  ⟨by decide, by decide,
   C10_null_title_patch_uncategorized exampleStore 1
     { completed := some (some true), title := some none } true todoA
     (by decide) (by decide) (by decide) (by decide)⟩

/-- The fields of a successfully constructed Todo. -/
theorem mkTodo_ok_fields {id : Int} {title : Option String}
    {completed : Option Bool} {ca : Timestamp} {t : Todo}
    (h : mkTodo id title completed ca = .ok t) :
    t.id = id ∧ t.created_at = ca ∧ title = some t.title ∧
    completed = some t.completed ∧
    1 ≤ t.title.length ∧ t.title.length ≤ 500 := by
  rcases title with _ | str
  · simp only [mkTodo] at h
    exact Except.noConfusion h
  · rcases completed with _ | c
    · simp only [mkTodo] at h
      exact Except.noConfusion h
    · simp only [mkTodo] at h
      split at h
      · rename_i hb
        rw [Except.ok.injEq] at h
        subst h
        exact ⟨rfl, rfl, rfl, rfl, hb.1, hb.2⟩
      · simp at h

/-- `create_todo` always advances the counter by one. -/
theorem create_next_id (s : InMemoryTodoStorage) (d : TodoCreate)
    (now : Timestamp) :
    ((InMemoryTodoStorage.create_todo s d now).2).next_id = s.next_id + 1 := by
  simp only [InMemoryTodoStorage.create_todo]
  cases mkTodo s.next_id (some d.title) (some false) now <;> rfl

/-- A successful `create_todo` returns the todo under the allocated id. -/
theorem create_ok_id (s : InMemoryTodoStorage) (d : TodoCreate)
    (now : Timestamp) (t : Todo)
    (h : (InMemoryTodoStorage.create_todo s d now).1 = .ok t) :
    t.id = s.next_id := by
  simp only [InMemoryTodoStorage.create_todo] at h
  rcases hm : mkTodo s.next_id (some d.title) (some false) now with e | t'
  · rw [hm] at h
    simp at h
  · rw [hm] at h
    simp only [Except.ok.injEq] at h
    subst h
    exact (mkTodo_ok_fields hm).1

/-- No storage operation ever decreases the id counter. -/
theorem applyOp_next_id_mono (s : InMemoryTodoStorage) (op : Op) :
    s.next_id ≤ (applyOp s op).next_id := by
  cases op with
  | create t now =>
      simp only [applyOp]
      rw [create_next_id]
      omega
  | update i u =>
      simp only [applyOp, InMemoryTodoStorage.update_todo]
      cases InMemoryTodoStorage.dictGet i s.todos with
      | none => simp
      | some cur =>
          rcases hm : mkTodo cur.id (u.title.getD (some cur.title))
              (u.completed.getD (some cur.completed)) cur.created_at with e | t
          · simp [hm]
          · simp [hm]
  | delete i =>
      simp only [applyOp, InMemoryTodoStorage.delete_todo]
      by_cases h : (s.todos.find? (fun p => p.1 == i)).isSome <;> simp [h]
  | markAllComplete => simp [applyOp, InMemoryTodoStorage.mark_all_complete]
  | deleteCompleted =>
      simp [applyOp, InMemoryTodoStorage.delete_completed_todos]
  | deleteAll => simp [applyOp, InMemoryTodoStorage.delete_all_todos]

/-- Every id allocated during a run is at least the starting counter. -/
theorem allocatedIds_lb (ops : List Op) :
    ∀ (s : InMemoryTodoStorage), ∀ i ∈ allocatedIds s ops, s.next_id ≤ i := by
  induction ops with
  | nil =>
      intro s i hi
      simp [allocatedIds] at hi
  | cons op rest ih =>
      intro s i hi
      have hmono := applyOp_next_id_mono s op
      cases op with
      | create t now =>
          simp only [allocatedIds, List.mem_cons] at hi
          rcases hi with rfl | hi'
          · omega
          · have h1 := ih (applyOp s (.create t now)) i hi'
            omega
      | update j u =>
          have h1 := ih (applyOp s (.update j u)) i
            (by simpa [allocatedIds] using hi)
          omega
      | delete j =>
          have h1 := ih (applyOp s (.delete j)) i
            (by simpa [allocatedIds] using hi)
          omega
      | markAllComplete =>
          have h1 := ih (applyOp s .markAllComplete) i
            (by simpa [allocatedIds] using hi)
          omega
      | deleteCompleted =>
          have h1 := ih (applyOp s .deleteCompleted) i
            (by simpa [allocatedIds] using hi)
          omega
      | deleteAll =>
          have h1 := ih (applyOp s .deleteAll) i
            (by simpa [allocatedIds] using hi)
          omega

/-- The ids allocated during any run are strictly increasing. -/
theorem allocatedIds_pairwise (ops : List Op) :
    ∀ s : InMemoryTodoStorage,
      (allocatedIds s ops).Pairwise (fun a b => a < b) := by
  induction ops with
  | nil =>
      intro s
      simp [allocatedIds]
  | cons op rest ih =>
      intro s
      cases op with
      | create t now =>
          simp only [allocatedIds]
          refine List.pairwise_cons.mpr ⟨?_, ih _⟩
          intro i hi
          have h1 := allocatedIds_lb rest (applyOp s (.create t now)) i hi
          have h2 : (applyOp s (.create t now)).next_id = s.next_id + 1 := by
            simp only [applyOp]
            exact create_next_id s { title := t } now
          omega
      | update j u => simpa [allocatedIds] using ih (applyOp s (.update j u))
      | delete j => simpa [allocatedIds] using ih (applyOp s (.delete j))
      | markAllComplete =>
          simpa [allocatedIds] using ih (applyOp s .markAllComplete)
      | deleteCompleted =>
          simpa [allocatedIds] using ih (applyOp s .deleteCompleted)
      | deleteAll => simpa [allocatedIds] using ih (applyOp s .deleteAll)

/-- C3: over any sequence of storage operations run from a fresh store,
the ids allocated by the create calls are strictly increasing, hence all
distinct (no reuse even after deletions); a successful create returns the
todo under the freshly allocated counter value; and no operation ever
decreases the counter. -/
theorem C3_id_allocation_monotone (ops : List Op) :
    (allocatedIds InMemoryTodoStorage.init ops).Pairwise (fun a b => a < b) ∧
    (allocatedIds InMemoryTodoStorage.init ops).Nodup ∧
    (∀ (s : InMemoryTodoStorage) (op : Op),
      s.next_id ≤ (applyOp s op).next_id) ∧
    (∀ (s : InMemoryTodoStorage) (d : TodoCreate) (now : Timestamp) (t : Todo),
      (InMemoryTodoStorage.create_todo s d now).1 = .ok t →
        t.id = s.next_id ∧
        ((InMemoryTodoStorage.create_todo s d now).2).next_id
          = s.next_id + 1) :=
  ⟨allocatedIds_pairwise ops InMemoryTodoStorage.init,
   (allocatedIds_pairwise ops InMemoryTodoStorage.init).imp Int.ne_of_lt,
   applyOp_next_id_mono,
   fun s d now t h => ⟨create_ok_id s d now t h, create_next_id s d now⟩⟩

/-- Counterexample to C6 as literally stated ("for every existing id and
every patch ... returning the full updated Todo"): on a concrete store,
id 1 exists, yet the patch with title explicitly null and completed set
makes Storage.update fail with a validation error instead of returning an
updated Todo (and a patch with completed explicitly null behaves the same
way). -/
theorem C6_counterexample :
    InMemoryTodoStorage.get_todo_by_id exampleStore 1 = some todoA ∧
    (InMemoryTodoStorage.update_todo exampleStore 1
        { completed := some (some true), title := some none }).1
      = .error () := by
  exact ⟨by decide, rfl⟩

/-- C6 (amended): for a well-formed store and a pydantic-valid patch in
which no set field is explicitly null, Storage.update on an existing id
applies exactly the set fields, keeps id and created_at, returns the full
updated Todo, and leaves every other todo unchanged; on a missing id it
returns absent without error. -/
theorem C6_update_applies_patch (s : InMemoryTodoStorage) (todo_id : Int)
    (u : TodoUpdate) (hwf : StoreWF s) (hu : u.pydanticValid)
    (ht : u.title ≠ some none) (hc : u.completed ≠ some none) :
    (∀ cur, InMemoryTodoStorage.get_todo_by_id s todo_id = some cur →
      ∃ t, InMemoryTodoStorage.update_todo s todo_id u
            = (.ok (some t),
               { s with
                   todos := InMemoryTodoStorage.dictSet todo_id t s.todos }) ∧
        t.id = cur.id ∧ t.created_at = cur.created_at ∧
        t.title = (match u.title with
                   | some (some v) => v
                   | _ => cur.title) ∧
        t.completed = (match u.completed with
                       | some (some b) => b
                       | _ => cur.completed) ∧
        (∀ k, k ≠ todo_id →
          InMemoryTodoStorage.get_todo_by_id
              (InMemoryTodoStorage.update_todo s todo_id u).2 k
            = InMemoryTodoStorage.get_todo_by_id s k)) ∧
    (InMemoryTodoStorage.get_todo_by_id s todo_id = none →
      InMemoryTodoStorage.update_todo s todo_id u = (.ok none, s)) := by
  constructor
  · intro cur hcur
    have hg : InMemoryTodoStorage.dictGet todo_id s.todos = some cur := hcur
    have hcurT : 1 ≤ cur.title.length ∧ cur.title.length ≤ 500 := by
      rcases hfind : s.todos.find? (fun p => p.1 == todo_id) with _ | p
      · rw [InMemoryTodoStorage.dictGet, hfind] at hg
        cases hg
      · rw [InMemoryTodoStorage.dictGet, hfind, Option.map_some'] at hg
        rw [Option.some_inj] at hg
        subst hg
        exact (hwf.1 p (List.mem_of_find?_eq_some hfind)).2.1
    have main : ∀ (T : String) (C : Bool),
        u.title.getD (some cur.title) = some T →
        u.completed.getD (some cur.completed) = some C →
        1 ≤ T.length → T.length ≤ 500 →
        ∀ t : Todo,
        t = { id := cur.id, title := T, completed := C,
              created_at := cur.created_at } →
        InMemoryTodoStorage.update_todo s todo_id u
          = (.ok (some t),
             { s with
                 todos := InMemoryTodoStorage.dictSet todo_id t s.todos }) := by
      intro T C hT hC h1 h2 t hteq
      subst hteq
      simp only [InMemoryTodoStorage.update_todo, hg, hT, hC, mkTodo]
      rw [if_pos ⟨h1, h2⟩]
    rcases htc : u.title with _ | ov
    · rcases hcc : u.completed with _ | ob
      · have heq := main cur.title cur.completed (by rw [htc]; rfl)
          (by rw [hcc]; rfl) hcurT.1 hcurT.2 _ rfl
        refine ⟨_, heq, rfl, rfl, rfl, rfl, ?_⟩
        intro k hk
        rw [heq]
        simpa [InMemoryTodoStorage.get_todo_by_id] using
          InMemoryTodoStorage.dictGet_dictSet_ne todo_id k _ s.todos hk
      · rcases ob with _ | b
        · exact absurd hcc hc
        · have heq := main cur.title b (by rw [htc]; rfl)
            (by rw [hcc]; rfl) hcurT.1 hcurT.2 _ rfl
          refine ⟨_, heq, rfl, rfl, rfl, rfl, ?_⟩
          intro k hk
          rw [heq]
          simpa [InMemoryTodoStorage.get_todo_by_id] using
            InMemoryTodoStorage.dictGet_dictSet_ne todo_id k _ s.todos hk
    · rcases ov with _ | v
      · exact absurd htc ht
      · have hvT := hu v htc
        rcases hcc : u.completed with _ | ob
        · have heq := main v cur.completed (by rw [htc]; rfl)
            (by rw [hcc]; rfl) hvT.1 hvT.2 _ rfl
          refine ⟨_, heq, rfl, rfl, rfl, rfl, ?_⟩
          intro k hk
          rw [heq]
          simpa [InMemoryTodoStorage.get_todo_by_id] using
            InMemoryTodoStorage.dictGet_dictSet_ne todo_id k _ s.todos hk
        · rcases ob with _ | b
          · exact absurd hcc hc
          · have heq := main v b (by rw [htc]; rfl)
              (by rw [hcc]; rfl) hvT.1 hvT.2 _ rfl
            refine ⟨_, heq, rfl, rfl, rfl, rfl, ?_⟩
            intro k hk
            rw [heq]
            simpa [InMemoryTodoStorage.get_todo_by_id] using
              InMemoryTodoStorage.dictGet_dictSet_ne todo_id k _ s.todos hk
  · intro habs
    have hg : InMemoryTodoStorage.dictGet todo_id s.todos = none := habs
    simp [InMemoryTodoStorage.update_todo, hg]

/-- Witness for the amended C6: patch `{completed: true}` on existing id 1
of a concrete store. -/
theorem C6_witness :
    StoreWF exampleStore ∧
    (∃ t, InMemoryTodoStorage.update_todo exampleStore 1
            { completed := some (some true), title := none }
          = (.ok (some t),
             { exampleStore with
                 todos := InMemoryTodoStorage.dictSet 1 t exampleStore.todos }) ∧
      t.id = todoA.id ∧ t.created_at = todoA.created_at ∧
      t.title = (match (none : Option (Option String)) with
                 | some (some v) => v
                 | _ => todoA.title) ∧
      t.completed = (match (some (some true) : Option (Option Bool)) with
                     | some (some b) => b
                     | _ => todoA.completed) ∧
      (∀ k, k ≠ 1 →
        InMemoryTodoStorage.get_todo_by_id
            (InMemoryTodoStorage.update_todo exampleStore 1
              { completed := some (some true), title := none }).2 k
          = InMemoryTodoStorage.get_todo_by_id exampleStore k)) :=
  ⟨by decide,
   (C6_update_applies_patch exampleStore 1
       { completed := some (some true), title := none } (by decide)
       (fun sstr hs => Option.noConfusion hs) (by decide) (by decide)).1
     todoA (by decide)⟩

/-- Witness for C3: a concrete run interleaving creates and deletes, and a
concrete successful create from the fresh store. -/
theorem C3_witness :
    (allocatedIds InMemoryTodoStorage.init
        [Op.create "x" 1, Op.delete 1, Op.create "y" 2, Op.deleteAll,
         Op.create "z" 3]).Pairwise (fun a b => a < b) ∧
    (({ id := 1, title := "x", completed := false,
        created_at := 1 } : Todo).id = InMemoryTodoStorage.init.next_id ∧
     ((InMemoryTodoStorage.create_todo InMemoryTodoStorage.init
         { title := "x" } 1).2).next_id
       = InMemoryTodoStorage.init.next_id + 1) :=
  ⟨(C3_id_allocation_monotone
      [Op.create "x" 1, Op.delete 1, Op.create "y" 2, Op.deleteAll,
       Op.create "z" 3]).1,
   (C3_id_allocation_monotone []).2.2.2 InMemoryTodoStorage.init
     { title := "x" } 1
     { id := 1, title := "x", completed := false, created_at := 1 } rfl⟩
